import Mathlib

/-!
# Verification of the monday-cli cache / filter / ordering core

Shallow embedding of the Go sources of the `monday-cli` repository
(`monday/data_store.go`, `monday/client.go`, `monday/config.go`,
`cli/command_handler.go`) together with theorems settling the frozen
claims about the natural-language specification.

Modelling conventions:
* Go `map[K]V` values are modelled as association lists `List (K × V)`
  with unique keys; `GoMap.find` / `GoMap.insert` / `GoMap.erase` mirror
  map indexing, assignment and `delete`.  `List.length` mirrors `len`
  on such a list (entry count).  Go map iteration order is unspecified;
  where the source ranges over a map we iterate in list order, which is
  one admissible schedule.
* Go `int` is modelled as `Int` (no overflow is reachable here: the
  values are small local identifiers), `time.Time` as an abstract `Int`
  tick supplied explicitly to every operation that reads the clock.
* `string` is Lean `String`; `strings.ToLower` is `String.toLower`,
  `strings.Contains` is substring containment on the character lists.
* Fallible operations return `Except String` / `Option`.
-/

set_option autoImplicit false

namespace MondayCLI

/-! ## Go map model -/

namespace GoMap

variable {α : Type} {β : Type} [DecidableEq α]

/-- Go map indexing `m[k]` in its comma-ok form: the value stored at `k`. -/
def find : List (α × β) → α → Option β
  | [], _ => none
  | (k', v) :: rest, k => if k' = k then some v else find rest k

/-- Go map assignment `m[k] = v`: replace the binding of `k` if present,
otherwise add a new binding. -/
def insert : List (α × β) → α → β → List (α × β)
  | [], k, v => [(k, v)]
  | (k', v') :: rest, k, v =>
    if k' = k then (k, v) :: rest else (k', v') :: insert rest k v

/-- Go `delete(m, k)`. -/
def erase (m : List (α × β)) (k : α) : List (α × β) :=
  m.filter (fun p => p.1 ≠ k)

/-- First key bound to value `v` (the `range` loop of `GetTaskLocalIdByID`,
determinised to list order). -/
def revFind [DecidableEq β] : List (α × β) → β → Option α
  | [], _ => none
  | (k, v') :: rest, v => if v' = v then some k else revFind rest v

/-- The keys of the map are pairwise distinct (always true of a real Go map). -/
abbrev NoDupKeys (m : List (α × β)) : Prop := (m.map Prod.fst).Nodup

@[simp] theorem find_nil (k : α) : find ([] : List (α × β)) k = none := rfl

@[simp] theorem find_cons (k' : α) (v : β) (rest : List (α × β)) (k : α) :
    find ((k', v) :: rest) k = if k' = k then some v else find rest k := rfl

@[simp] theorem insert_nil (k : α) (v : β) :
    insert ([] : List (α × β)) k v = [(k, v)] := rfl

@[simp] theorem insert_cons (k' : α) (v' : β) (rest : List (α × β)) (k : α) (v : β) :
    insert ((k', v') :: rest) k v =
      if k' = k then (k, v) :: rest else (k', v') :: insert rest k v := rfl

theorem find_insert_self (m : List (α × β)) (k : α) (v : β) :
    find (insert m k v) k = some v := by
  induction m with
  | nil => simp [find, insert]
  | cons p rest ih =>
    obtain ⟨k', v'⟩ := p
    by_cases h : k' = k <;> simp [find, insert, h, ih]

theorem find_insert_ne (m : List (α × β)) (k k' : α) (v : β) (h : k ≠ k') :
    find (insert m k v) k' = find m k' := by
  induction m with
  | nil => simp [find, insert, h]
  | cons p rest ih =>
    obtain ⟨k₀, v₀⟩ := p
    by_cases h₀ : k₀ = k
    · subst h₀
      simp [find, insert, h]
    · by_cases h₁ : k₀ = k' <;> simp [find, insert, h₀, h₁, ih, Ne.symm h]

theorem length_insert_of_find_none (m : List (α × β)) (k : α) (v : β)
    (h : find m k = none) : (insert m k v).length = m.length + 1 := by
  induction m with
  | nil => simp [insert]
  | cons p rest ih =>
    obtain ⟨k₀, v₀⟩ := p
    by_cases h₀ : k₀ = k
    · simp [find, h₀] at h
    · simp only [find, h₀, if_false] at h
      simp [insert, h₀, ih h]

theorem erase_cons (k₀ : α) (v₀ : β) (rest : List (α × β)) (k : α) :
    erase ((k₀, v₀) :: rest) k =
      if k₀ = k then erase rest k else (k₀, v₀) :: erase rest k := by
  by_cases h₀ : k₀ = k <;> simp [erase, List.filter_cons, h₀]

theorem find_erase_self (m : List (α × β)) (k : α) :
    find (erase m k) k = none := by
  induction m with
  | nil => simp [erase]
  | cons p rest ih =>
    obtain ⟨k₀, v₀⟩ := p
    rw [erase_cons]
    by_cases h₀ : k₀ = k <;> simp [find, h₀, ih]

theorem find_erase_ne (m : List (α × β)) (k k' : α) (h : k ≠ k') :
    find (erase m k) k' = find m k' := by
  induction m with
  | nil => simp [erase]
  | cons p rest ih =>
    obtain ⟨k₀, v₀⟩ := p
    rw [erase_cons]
    by_cases h₀ : k₀ = k
    · subst h₀
      simp [find, ih, Ne.symm h, h]
    · by_cases h₁ : k₀ = k' <;> simp [find, h₀, h₁, ih, Ne.symm h]

end GoMap

/-! ## Entity model (`monday/models.go` and the `Task` shape used throughout
`monday/client.go` / `monday/data_store.go`).

`Status`, `Priority`, `Type`, `Sprint` are string types in the source
(`Status(cv.Text)` casts); they are plain `String`s here.  The raw
`json.RawMessage` payload of a column value is used by the source only
through a double `json.Unmarshal` whose *success* gates the user-assignment
branch; that success is modelled as the Boolean field `valueParsesAsPerson`. -/

structure ColumnValue where
  id : String
  text : String
  valueParsesAsPerson : Bool
  deriving Repr, DecidableEq

structure Item where
  id : String
  name : String
  columnValues : List ColumnValue
  updatedAt : Int
  deriving Repr, DecidableEq

structure User where
  id : String
  name : String
  email : String
  title : String
  photoURL : String
  enabled : Bool
  deriving Repr, DecidableEq

structure Task where
  id : String
  localId : Int
  name : String
  status : String
  priority : String
  type : String
  sprint : String
  userName : String
  userEmail : String
  updatedAt : Int
  deriving Repr, DecidableEq

/-- The Go zero value `Task{}`. -/
def Task.zero : Task :=
  { id := "", localId := 0, name := "", status := "", priority := "",
    type := "", sprint := "", userName := "", userEmail := "", updatedAt := 0 }

/-- `TaskCache` from `monday/data_store.go`:
`Tasks map[string]Task`, `LocalIdMap map[int]string`,
`RawItems map[string]Item`, `Users map[string]User`,
`Sprints []Sprint`, `Timestamp time.Time`. -/
structure TaskCache where
  tasks : List (String × Task)
  localIdMap : List (Int × String)
  rawItems : List (String × Item)
  users : List (String × User)
  sprints : List String
  timestamp : Int
  deriving Repr, DecidableEq

/-- The in-memory `DataStore.cache : map[string]TaskCache`. -/
def Cache : Type := List (String × TaskCache)

instance : DecidableEq Cache := by unfold Cache; infer_instance

/-! ## Cache store operations (`monday/data_store.go`) -/

/-- The fresh `TaskCache` literal built by `StoreRawItems` / `StoreBoardUsers`
and friends when the board has no entry yet. -/
def TaskCache.empty (now : Int) : TaskCache :=
  { tasks := [], localIdMap := [], rawItems := [], users := [],
    sprints := [], timestamp := now }

/-- `GetTaskLocalIdByID` (data_store.go:318-329).  It scans `LocalIdMap` for
an entry whose value is `taskID`; failing that it inserts `taskID` at key
`len(LocalIdMap)+1` and then returns `len(LocalIdMap)+1` **recomputed on the
mutated map** (the struct copy aliases the same map), i.e. one more than the
key it just wrote.  Returns `none` for the `board not found` error. -/
def getTaskLocalIdByID (ds : Cache) (boardID taskID : String) :
    Cache × Option Int :=
  match GoMap.find ds boardID with
  | none => (ds, none)
  | some cached =>
    match GoMap.revFind cached.localIdMap taskID with
    | some localId => (ds, some localId)
    | none =>
      let m1 := GoMap.insert cached.localIdMap ((cached.localIdMap.length : Int) + 1) taskID
      (GoMap.insert ds boardID { cached with localIdMap := m1 },
       some ((m1.length : Int) + 1))

/-- `StoreTaskRequest` (data_store.go:162-185).  Note the order of effects in
the source: the task is written into `Tasks` *before* `GetTaskLocalIdByID`
runs, and the local variable `task.LocalId = localId` is assigned only after
that write, so the stored task keeps its incoming `LocalId` field. -/
def storeTaskRequest (ds : Cache) (now : Int) (boardID : String) (task : Task) :
    Cache × Int :=
  let ds1 :=
    match GoMap.find ds boardID with
    | some _ => ds
    | none =>
      GoMap.insert ds boardID
        { tasks := [], localIdMap := [], rawItems := [], users := [],
          sprints := [], timestamp := now }
  let c1 := (GoMap.find ds1 boardID).getD (TaskCache.empty now)
  let ds2 := GoMap.insert ds1 boardID
    { c1 with tasks := GoMap.insert c1.tasks task.id task }
  let r := getTaskLocalIdByID ds2 boardID task.id
  let ds3 := r.1
  let c3 := (GoMap.find ds3 boardID).getD (TaskCache.empty now)
  let localId : Int :=
    match r.2 with
    | some l => l
    | none => (c3.localIdMap.length : Int) + 1
  let ds4 := GoMap.insert ds3 boardID
    { c3 with localIdMap := GoMap.insert c3.localIdMap localId task.id }
  (ds4, localId)

/-- The `tasksMap` built by the first loop of `StoreTasksRequest`. -/
def tasksMapOf (tasks : List Task) : List (String × Task) :=
  tasks.foldl (fun m t => GoMap.insert m t.id t) []

/-- The `localIdMap` built by the first loop of `StoreTasksRequest` (the
duplicate-local-ID case only prints a warning and overwrites). -/
def localIdMapOf (tasks : List Task) : List (Int × String) :=
  tasks.foldl (fun m t => GoMap.insert m t.localId t.id) []

/-- The `rawItemsMap` built by the second loop of `StoreTasksRequest`. -/
def rawItemsMapOf (rawItems : List Item) : List (String × Item) :=
  rawItems.foldl (fun m i => GoMap.insert m i.id i) []

/-- `StoreTasksRequest` (data_store.go:132-159): build fresh maps from the
input lists and overwrite the board's cache entry wholesale. -/
def storeTasksRequest (ds : Cache) (now : Int) (boardID : String)
    (tasks : List Task) (rawItems : List Item) : Cache :=
  GoMap.insert ds boardID
    { tasks := tasksMapOf tasks, localIdMap := localIdMapOf tasks,
      rawItems := rawItemsMapOf rawItems, users := [], sprints := [],
      timestamp := now }

/-- `UpdateCachedTaskByLocalId` (data_store.go:241-250). -/
def updateCachedTaskByLocalId (ds : Cache) (boardID : String) (localId : Int)
    (task : Task) : Cache :=
  match GoMap.find ds boardID with
  | none => ds
  | some cached =>
    match GoMap.find cached.localIdMap localId with
    | none => ds
    | some taskID =>
      GoMap.insert ds boardID
        { cached with tasks := GoMap.insert cached.tasks taskID task }

/-- `ClearCache` (data_store.go:253-260). -/
def clearCache (ds : Cache) (boardID : String) : Cache :=
  GoMap.erase ds boardID

/-! ## Persistence (`Save` / `Load`, data_store.go:272-316)

`Save` runs `json.Marshal(ds.cache)` and writes one JSON document; `Load`
reads it back and `json.Unmarshal`s into `ds.cache`.  The JSON document is
modelled by the `Json` tree below; `encodeStore` is the marshalled shape of
the cache (Go marshals `map[int]string` keys losslessly — here an int key is
kept as a `Json.int` pair component, which models the same lossless decimal
round-trip).  `json.Unmarshal` into a non-nil `map[string]TaskCache` keeps
entries whose key is absent from the document and replaces the rest, which
`mergeLoaded` reproduces. -/

inductive Json where
  | bool (b : Bool)
  | int (i : Int)
  | str (s : String)
  | arr (elems : List Json)
  | obj (fields : List (String × Json))

/-- `json.Unmarshal` of a JSON array element-wise: fail if any element
fails. -/
def optionMapM {a b : Type} (f : a → Option b) : List a → Option (List b)
  | [] => some []
  | x :: rest =>
    match f x with
    | none => none
    | some y => (optionMapM f rest).map (fun ys => y :: ys)

def encodeColumnValue (cv : ColumnValue) : Json :=
  .obj [("id", .str cv.id), ("text", .str cv.text),
        ("value", .bool cv.valueParsesAsPerson)]

def decodeColumnValue : Json → Option ColumnValue
  | .obj [("id", .str i), ("text", .str t), ("value", .bool v)] =>
    some { id := i, text := t, valueParsesAsPerson := v }
  | _ => none

def encodeItem (it : Item) : Json :=
  .obj [("id", .str it.id), ("name", .str it.name),
        ("column_values", .arr (it.columnValues.map encodeColumnValue)),
        ("updated_at", .int it.updatedAt)]

def decodeItem : Json → Option Item
  | .obj [("id", .str i), ("name", .str n), ("column_values", .arr cvs),
          ("updated_at", .int u)] =>
    (optionMapM decodeColumnValue cvs).map
      (fun cs => { id := i, name := n, columnValues := cs, updatedAt := u })
  | _ => none

def encodeUser (u : User) : Json :=
  .obj [("id", .str u.id), ("name", .str u.name), ("email", .str u.email),
        ("title", .str u.title), ("photo_url", .str u.photoURL),
        ("enabled", .bool u.enabled)]

def decodeUser : Json → Option User
  | .obj [("id", .str i), ("name", .str n), ("email", .str e),
          ("title", .str t), ("photo_url", .str p), ("enabled", .bool en)] =>
    some { id := i, name := n, email := e, title := t, photoURL := p,
           enabled := en }
  | _ => none

def encodeTask (t : Task) : Json :=
  .obj [("id", .str t.id), ("local_id", .int t.localId), ("name", .str t.name),
        ("status", .str t.status), ("priority", .str t.priority),
        ("type", .str t.type), ("sprint", .str t.sprint),
        ("user_name", .str t.userName), ("user_email", .str t.userEmail),
        ("updated_at", .int t.updatedAt)]

def decodeTask : Json → Option Task
  | .obj [("id", .str i), ("local_id", .int l), ("name", .str n),
          ("status", .str s), ("priority", .str p), ("type", .str ty),
          ("sprint", .str sp), ("user_name", .str un),
          ("user_email", .str ue), ("updated_at", .int u)] =>
    some { id := i, localId := l, name := n, status := s, priority := p,
           type := ty, sprint := sp, userName := un, userEmail := ue,
           updatedAt := u }
  | _ => none

/-- A string-keyed Go map marshals as a JSON object. -/
def encodeStrMap {β : Type} (enc : β → Json) (m : List (String × β)) : Json :=
  .obj (m.map (fun p => (p.1, enc p.2)))

def decodeStrMap {β : Type} (dec : Json → Option β) :
    Json → Option (List (String × β))
  | .obj fields => optionMapM (fun p => (dec p.2).map (fun b => (p.1, b))) fields
  | _ => none

/-- `map[int]string` marshals with each key carried losslessly. -/
def encodeLocalIdMap (m : List (Int × String)) : Json :=
  .arr (m.map (fun p => .arr [.int p.1, .str p.2]))

def decodeLocalIdMap : Json → Option (List (Int × String))
  | .arr elems =>
    optionMapM (fun e =>
      match e with
      | .arr [.int k, .str v] => some (k, v)
      | _ => none) elems
  | _ => none

def encodeTaskCache (c : TaskCache) : Json :=
  .obj [("Tasks", encodeStrMap encodeTask c.tasks),
        ("LocalIdMap", encodeLocalIdMap c.localIdMap),
        ("RawItems", encodeStrMap encodeItem c.rawItems),
        ("Users", encodeStrMap encodeUser c.users),
        ("Sprints", .arr (c.sprints.map .str)),
        ("Timestamp", .int c.timestamp)]

def decodeTaskCache : Json → Option TaskCache
  | .obj [("Tasks", ts), ("LocalIdMap", lm), ("RawItems", ri),
          ("Users", us), ("Sprints", .arr sp), ("Timestamp", .int n)] => do
    let tasks ← decodeStrMap decodeTask ts
    let localIdMap ← decodeLocalIdMap lm
    let rawItems ← decodeStrMap decodeItem ri
    let users ← decodeStrMap decodeUser us
    let sprints ← optionMapM (fun e =>
      match e with
      | .str s => some s
      | _ => none) sp
    pure { tasks := tasks, localIdMap := localIdMap, rawItems := rawItems,
           users := users, sprints := sprints, timestamp := n }
  | _ => none

/-- `json.Marshal(ds.cache)`: the document `Save` writes. -/
def encodeStore (ds : Cache) : Json :=
  encodeStrMap encodeTaskCache ds

/-- `json.Unmarshal` of the document into a `map[string]TaskCache` value. -/
def decodeStore (j : Json) : Option Cache :=
  decodeStrMap decodeTaskCache j

/-- Unmarshalling into an existing map keeps stale keys and replaces the
decoded ones. -/
def mergeLoaded (current : Cache) (loaded : Cache) : Cache :=
  loaded.foldl (fun acc p => GoMap.insert acc p.1 p.2) current

/-- The on-disk cache file as `Load` can observe it: absent, unparseable
bytes, or a parsed JSON document. -/
inductive CacheFile where
  | missing
  | malformed
  | stored (doc : Json)

/-- `Load` (data_store.go:297-316): a missing file is not an error and leaves
the in-memory cache as it is; unparseable or undecodable content propagates a
deserialization error; otherwise the document is unmarshalled into the cache. -/
def loadGo (file : CacheFile) (ds : Cache) : Except String Cache :=
  match file with
  | .missing => .ok ds
  | .malformed => .error "failed to unmarshal cache"
  | .stored doc =>
    match decodeStore doc with
    | none => .error "failed to unmarshal cache"
    | some loaded => .ok (mergeLoaded ds loaded)

/-- `NewDataStore` (data_store.go:27-36): start from an empty cache, `Load`,
and fall back to the empty cache if `Load` fails. -/
def newDataStore (file : CacheFile) : Cache :=
  match loadGo file [] with
  | .ok c => c
  | .error _ => []

/-- Result triple of the cached getters (`Task`, `time.Time`, `bool`). -/
structure GetTaskResult where
  task : Task
  timestamp : Int
  found : Bool
  deriving Repr, DecidableEq

/-- `GetCachedTasks` (data_store.go:188-197). -/
def getCachedTasks (file : CacheFile) (ds : Cache) (boardID : String) :
    List (String × Task) × Int × Bool :=
  match loadGo file ds with
  | .error _ => ([], 0, false)
  | .ok c =>
    match GoMap.find c boardID with
    | some cached => (cached.tasks, cached.timestamp, true)
    | none => ([], 0, false)

/-- `GetCachedTask` (data_store.go:199-207): when the board exists the task
map is indexed directly, so an absent task ID yields the zero `Task` with
`found = true`. -/
def getCachedTask (file : CacheFile) (ds : Cache) (boardID taskID : String) :
    GetTaskResult :=
  match loadGo file ds with
  | .error _ => ⟨Task.zero, 0, false⟩
  | .ok c =>
    match GoMap.find c boardID with
    | some cached =>
      ⟨(GoMap.find cached.tasks taskID).getD Task.zero, cached.timestamp, true⟩
    | none => ⟨Task.zero, 0, false⟩

/-- `GetCachedTaskByLocalId` (data_store.go:210-220). -/
def getCachedTaskByLocalId (file : CacheFile) (ds : Cache) (boardID : String)
    (localId : Int) : GetTaskResult :=
  match loadGo file ds with
  | .error _ => ⟨Task.zero, 0, false⟩
  | .ok c =>
    match GoMap.find c boardID with
    | some cached =>
      match GoMap.find cached.localIdMap localId with
      | some taskID =>
        ⟨(GoMap.find cached.tasks taskID).getD Task.zero, cached.timestamp, true⟩
      | none => ⟨Task.zero, 0, false⟩
    | none => ⟨Task.zero, 0, false⟩

/-! ## String helpers

`strings.ToLower`, `strings.Contains`, `strings.Split`, `strings.TrimSpace`
and `strings.Join` over the character list of a `String` (the source data is
ASCII label text, for which these agree with the Go Unicode versions). -/

/-- `strings.ToLower`. -/
def goToLower (s : String) : String := ⟨s.data.map Char.toLower⟩

/-- `strings.Contains s sub`. -/
def goContains (s sub : String) : Bool := decide (sub.toList <:+: s.toList)

private def splitCommaAux : List Char → List Char → List String
  | [], acc => [⟨acc.reverse⟩]
  | c :: rest, acc =>
    if c = ',' then ⟨acc.reverse⟩ :: splitCommaAux rest []
    else splitCommaAux rest (c :: acc)

/-- `strings.Split s ","`. -/
def goSplitComma (s : String) : List String := splitCommaAux s.data []

private def isSpaceChar (c : Char) : Bool :=
  c = ' ' || c = '\t' || c = '\n' || c = '\r'

/-- `strings.TrimSpace`. -/
def goTrimSpace (s : String) : String :=
  ⟨((s.data.dropWhile isSpaceChar).reverse.dropWhile isSpaceChar).reverse⟩

/-- `strings.Join xs ", "`. -/
def goJoinComma (xs : List String) : String :=
  match xs with
  | [] => ""
  | x :: rest => rest.foldl (fun acc y => acc ++ ", " ++ y) x

/-! ## Sorting helpers and `OrderTasks` (`monday/client.go`) -/

/-- `getSortableStatus` (client.go:1096-1114). -/
def getSortableStatus (task : Task) : Int :=
  let status := goToLower task.status
  if goContains status "done" then 1
  else if goContains status "in progress" then 2
  else if goContains status "stuck" then 3
  else if goContains status "waiting for review" then 4
  else if goContains status "ready for testing" then 5
  else if goContains status "removed" then 6
  else 7

/-- `getSortablePriority` (client.go:1116-1130). -/
def getSortablePriority (task : Task) : Int :=
  let priority := goToLower task.priority
  if goContains priority "critical" then 1
  else if goContains priority "high" then 2
  else if goContains priority "medium" then 3
  else if goContains priority "low" then 4
  else 5

/-- `getSortableType` (client.go:1132-1150). -/
def getSortableType (task : Task) : Int :=
  let taskType := goToLower task.type
  if goContains taskType "bug" then 1
  else if goContains taskType "feature" then 2
  else if goContains taskType "test" then 3
  else if goContains taskType "security" then 4
  else if goContains taskType "quality" then 5
  else if goContains taskType "other" then 6
  else 7

/-- The `less` closure passed to `sort.Slice` by `OrderTasks`
(client.go:720-741). -/
def orderLess (ti tj : Task) : Bool :=
  let statusI := getSortableStatus ti
  let statusJ := getSortableStatus tj
  if statusI ≠ statusJ then statusI < statusJ
  else
    let priorityI := getSortablePriority ti
    let priorityJ := getSortablePriority tj
    if priorityI ≠ priorityJ then priorityI < priorityJ
    else getSortableType ti < getSortableType tj

private def insertOrdered (t : Task) : List Task → List Task
  | [] => [t]
  | u :: rest => if orderLess t u then t :: u :: rest else u :: insertOrdered t rest

/-- `OrderTasks` (client.go:719-743).  `sort.Slice` promises a permutation
ordered by the comparator but leaves the order of comparator-ties
unspecified; it is modelled here by an insertion sort with respect to the
same comparator, which is one admissible outcome (tie-order properties are
therefore *not* derivable from this embedding). -/
def orderTasks (tasks : List Task) : List Task :=
  tasks.foldr insertOrdered []

/-! ## `Filters` (`monday/config.go:12-25`) and `FilterTasks`
(`monday/client.go:1158-1206`) -/

structure Filters where
  userNameWhitelist : List String
  userNameBlacklist : List String
  userEmailWhitelist : List String
  userEmailBlacklist : List String
  statusWhitelist : List String
  statusBlacklist : List String
  priorityWhitelist : List String
  priorityBlacklist : List String
  typeWhitelist : List String
  typeBlacklist : List String
  sprintWhitelist : List String
  sprintBlacklist : List String
  deriving Repr, DecidableEq

/-- The empty `Filters{}` literal of `DefaultConfig`. -/
def Filters.empty : Filters :=
  { userNameWhitelist := [], userNameBlacklist := [], userEmailWhitelist := [],
    userEmailBlacklist := [], statusWhitelist := [], statusBlacklist := [],
    priorityWhitelist := [], priorityBlacklist := [], typeWhitelist := [],
    typeBlacklist := [], sprintWhitelist := [], sprintBlacklist := [] }

/-- A `continue` guard of the whitelist kind:
`len(list) > 0 && !slices.Contains(list, value)`. -/
def whitelistBlocks (wl : List String) (v : String) : Bool :=
  wl.length > 0 && !(wl.contains v)

/-- A `continue` guard of the blacklist kind:
`len(list) > 0 && slices.Contains(list, value)`. -/
def blacklistBlocks (bl : List String) (v : String) : Bool :=
  bl.length > 0 && bl.contains v

/-- The body of the `FilterTasks` loop for a single task: `true` exactly when
none of the twelve `continue` guards fires. -/
def passesFilters (filters : Filters) (task : Task) : Bool :=
  let status := goToLower task.status
  let priority := goToLower task.priority
  let itemType := goToLower task.type
  let sprint := goToLower task.sprint
  let userName := goToLower task.userName
  let userEmail := goToLower task.userEmail
  if whitelistBlocks filters.statusWhitelist status then false
  else if blacklistBlocks filters.statusBlacklist status then false
  else if whitelistBlocks filters.priorityWhitelist priority then false
  else if blacklistBlocks filters.priorityBlacklist priority then false
  else if whitelistBlocks filters.typeWhitelist itemType then false
  else if blacklistBlocks filters.typeBlacklist itemType then false
  else if whitelistBlocks filters.sprintWhitelist sprint then false
  else if blacklistBlocks filters.sprintBlacklist sprint then false
  else if whitelistBlocks filters.userNameWhitelist userName then false
  else if blacklistBlocks filters.userNameBlacklist userName then false
  else if whitelistBlocks filters.userEmailWhitelist userEmail then false
  else if blacklistBlocks filters.userEmailBlacklist userEmail then false
  else true

/-- `FilterTasks` (client.go:1158-1206): keep, in input order, the tasks for
which no guard fires. -/
def filterTasks (tasks : List Task) (filters : Filters) : List Task :=
  match tasks with
  | [] => []
  | task :: rest =>
    if passesFilters filters task then task :: filterTasks rest filters
    else filterTasks rest filters

/-! ## Task construction in `GetBoardItems` (`monday/client.go:134-316`)

The network / pagination part is an excluded collaborator; the pure tail of
the function (client.go:217-315) converts the fetched `[]Item` into `[]Task`,
assigning `LocalId` 1, 2, ... in input order and deriving the remaining
fields from the column values by substring heuristics. -/

/-- One iteration of the inner `for _, cv := range item.ColumnValues` loop of
`GetBoardItems` (client.go:238-312). -/
def applyColumnValue (task : Task) (cv : ColumnValue) : Task :=
  let task :=
    if goContains (goToLower cv.id) "status" && cv.text ≠ "" then
      { task with status := cv.text }
    else task
  let task :=
    if goContains (goToLower cv.id) "priority" && cv.text ≠ "" then
      { task with priority := cv.text }
    else task
  let task :=
    if goContains (goToLower cv.id) "type" && cv.text ≠ "" then
      { task with type := cv.text }
    else task
  let columnID := goToLower cv.id
  let columnText := goToLower cv.text
  let task :=
    if (goContains columnID "sprint" || goContains columnID "iteration" ||
        goContains columnID "cycle" || goContains columnID "release" ||
        goContains columnID "milestone" || goContains columnID "phase" ||
        goContains columnText "sprint" || goContains columnText "iteration" ||
        goContains columnText "cycle" || goContains columnText "release" ||
        goContains columnText "milestone" || goContains columnText "phase") &&
       cv.text ≠ "" then
      { task with sprint := cv.text }
    else task
  if (goContains (goToLower cv.id) "person" || goContains (goToLower cv.id) "user" ||
      goContains (goToLower cv.id) "owner" || goContains (goToLower cv.id) "assign") &&
     cv.valueParsesAsPerson then
    let names := (goSplitComma cv.text).foldl
      (fun acc n =>
        let trimmed := goTrimSpace n
        if trimmed ≠ "" && !acc.contains trimmed then acc ++ [trimmed] else acc)
      []
    let task := if names ≠ [] then { task with userName := goJoinComma names } else task
    if names ≠ [] then { task with userEmail := goJoinComma names } else task
  else task

/-- The per-item task construction of `GetBoardItems` (client.go:219-314). -/
def itemToTask (localId : Int) (item : Item) : Task :=
  let base : Task :=
    { Task.zero with id := item.id, localId := localId, name := item.name,
                     updatedAt := item.updatedAt }
  item.columnValues.foldl applyColumnValue base

private def boardItemsToTasksAux : Int → List Item → List Task
  | _, [] => []
  | localId, item :: rest =>
    itemToTask localId item :: boardItemsToTasksAux (localId + 1) rest

/-- The `[]Task` result of `GetBoardItems` for a fetched item list: local IDs
are handed out as 1, 2, ... in input order (client.go:217-226). -/
def boardItemsToTasks (items : List Item) : List Task :=
  boardItemsToTasksAux 1 items

/-! ## Sprint merge (`DataStore.MergeSprintTasksIntoBoard`) -/

/-- Modelled from the spec: the body of `MergeSprintTasksIntoBoard` is not in
the repository sources (only its call site in `HandleSprintFetchCommand`,
command_handler.go:910-915, is); this follows §4.1 `mergeSprintFetch` and
§4.4 of the specification.  Per incoming task: if a task with the same remote
ID already exists in the board's task mapping, overwrite its fields in place
while retaining its existing local ID; otherwise mint the next unused local
ID — one greater than the current maximum in use, i.e. 1 on an empty cache —
and insert the task under it. -/
def maxLocalIdInUse (m : List (Int × String)) : Int :=
  m.foldl (fun acc p => max acc p.1) 0

/-- Modelled from the spec: the per-incoming-task step of
`MergeSprintTasksIntoBoard` (see `maxLocalIdInUse` for provenance). -/
def mergeSprintTaskStep (c : TaskCache) (t : Task) : TaskCache :=
  match GoMap.find c.tasks t.id with
  | some old =>
    { c with tasks := GoMap.insert c.tasks t.id { t with localId := old.localId } }
  | none =>
    let l := maxLocalIdInUse c.localIdMap + 1
    { c with tasks := GoMap.insert c.tasks t.id { t with localId := l },
             localIdMap := GoMap.insert c.localIdMap l t.id }

/-- Modelled from the spec: `MergeSprintTasksIntoBoard` over a whole sprint
fetch result — start from the board's cache (or a fresh empty one), merge
the incoming tasks in order, record the raw items, refresh the timestamp. -/
def mergeSprintTasksIntoBoard (ds : Cache) (now : Int) (boardID : String)
    (tasks : List Task) (rawItems : List Item) : Cache :=
  let c0 := (GoMap.find ds boardID).getD (TaskCache.empty now)
  let c1 := tasks.foldl mergeSprintTaskStep c0
  let c2 := { c1 with
    rawItems := rawItems.foldl (fun m i => GoMap.insert m i.id i) c1.rawItems,
    timestamp := now }
  GoMap.insert ds boardID c2

/-! # Claims -/

/-! ## C1 — local-ID index injectivity

The claim fails on the source.  In `GetTaskLocalIdByID` the new entry is
written at key `len(LocalIdMap)+1` computed *before* the write, but the
returned local ID is `len(LocalIdMap)+1` recomputed *after* the write (the
ranged struct copy aliases the same map), so the function returns an ID one
past the entry it just recorded.  `StoreTaskRequest` then writes a second
entry under that returned ID, producing two local IDs for the same remote
task ID on the very first store into a fresh board. -/

/-- C1: evaluating `StoreTaskRequest` on an empty cache at the failing input
(board "B1", a task with remote ID "r1"): the call records local-ID entries
`{1: "r1", 2: "r1"}` — two local IDs for one remote ID, so the local-ID index
is not injective — and hands the caller local ID 2 while the first recorded
entry is 1. -/
theorem storeTaskRequest_violates_localId_injectivity :
    (storeTaskRequest [] 0 "B1" { Task.zero with id := "r1" }).2 = 2 ∧
    (GoMap.find (storeTaskRequest [] 0 "B1"
        { Task.zero with id := "r1" }).1 "B1").map TaskCache.localIdMap =
      some [((1 : Int), "r1"), (2, "r1")] ∧
    (GoMap.find (storeTaskRequest [] 0 "B1"
        { Task.zero with id := "r1" }).1 "B1").map
        (fun c => (GoMap.find c.localIdMap 1, GoMap.find c.localIdMap 2)) =
      some (some "r1", some "r1") := by
  refine ⟨rfl, rfl, rfl⟩

/-! ## C7 — missing cache file vs. malformed cache file -/

/-- C7: `Load` treats a missing cache file as success and leaves the cache
untouched, so a fresh store built from a missing file is empty and reads on
it report nothing found without an error; a file with malformed JSON makes
`Load` return a deserialization error to its caller instead of dropping the
data. -/
theorem load_missing_vs_malformed :
    (∀ ds : Cache, loadGo .missing ds = .ok ds) ∧
    newDataStore .missing = [] ∧
    (∀ boardID, getCachedTasks .missing [] boardID = ([], 0, false)) ∧
    (∀ ds : Cache, loadGo .malformed ds = .error "failed to unmarshal cache") := by
  refine ⟨fun ds => rfl, rfl, fun b => rfl, fun ds => rfl⟩

/-! ## C8 — absent local ID reports not-found -/

/-- C8: whenever the (successfully loaded) cache has no binding for the
requested local ID on the requested board — in particular when the board
itself is absent — `GetCachedTaskByLocalId` reports `found = false` instead
of handing back a zero-value task as found. -/
theorem getCachedTaskByLocalId_not_found (file : CacheFile) (ds cache : Cache)
    (boardID : String) (localId : Int)
    (hload : loadGo file ds = .ok cache)
    (habsent : ∀ c, GoMap.find cache boardID = some c →
      GoMap.find c.localIdMap localId = none) :
    (getCachedTaskByLocalId file ds boardID localId).found = false := by
  unfold getCachedTaskByLocalId
  rw [hload]
  cases hb : GoMap.find cache boardID with
  | none => simp only [hb]
  | some c => simp only [hb, habsent c hb]

/-- Witness for C8: a cache holding board "B1" with local IDs {1 ↦ "r1"};
local ID 5 is unmapped, and the lookup reports not-found. -/
theorem getCachedTaskByLocalId_not_found_witness :
    (getCachedTaskByLocalId .missing
      [("B1", { TaskCache.empty 0 with localIdMap := [(1, "r1")] })]
      "B1" 5).found = false :=
  getCachedTaskByLocalId_not_found .missing _ _ "B1" 5 rfl
    (fun c hc => by
      cases hc
      rfl)

/-! ## C6 — the full fetch overwrites the board's cache entry -/

theorem applyColumnValue_id_localId (t : Task) (cv : ColumnValue) :
    (applyColumnValue t cv).id = t.id ∧
    (applyColumnValue t cv).localId = t.localId := by
  unfold applyColumnValue
  dsimp only
  split_ifs <;> exact ⟨rfl, rfl⟩

theorem itemToTask_id_localId (localId : Int) (item : Item) :
    (itemToTask localId item).id = item.id ∧
    (itemToTask localId item).localId = localId := by
  unfold itemToTask
  suffices h : ∀ (cvs : List ColumnValue) (base : Task),
      (cvs.foldl applyColumnValue base).id = base.id ∧
      (cvs.foldl applyColumnValue base).localId = base.localId by
    simpa using h item.columnValues _
  intro cvs
  induction cvs with
  | nil => intro base; exact ⟨rfl, rfl⟩
  | cons cv rest ih =>
    intro base
    have hstep := applyColumnValue_id_localId base cv
    simpa [List.foldl_cons, hstep.1, hstep.2] using ih (applyColumnValue base cv)

/-- The local-ID sequence `start, start+1, ...` of length `n` (the counter
`localId := 1; ...; localId++` of client.go:218-226). -/
def sequentialIds (start : Int) : Nat → List Int
  | 0 => []
  | n + 1 => start :: sequentialIds (start + 1) n

theorem sequentialIds_eq_range_map (n : Nat) :
    ∀ start : Int,
      sequentialIds start n = (List.range n).map (fun k : Nat => start + (k : Int)) := by
  induction n with
  | zero => intro start; rfl
  | succ m ih =>
    intro start
    rw [sequentialIds, ih (start + 1), List.range_succ_eq_map, List.map_cons,
      List.map_map]
    refine congrArg₂ List.cons (by ring) (List.map_congr_left ?_)
    intro k _
    simp only [Function.comp_apply, Nat.succ_eq_add_one]
    push_cast
    ring

theorem boardItemsToTasksAux_spec (items : List Item) :
    ∀ i : Int,
      (boardItemsToTasksAux i items).map Task.localId =
        sequentialIds i items.length ∧
      (boardItemsToTasksAux i items).map Task.id = items.map Item.id := by
  induction items with
  | nil => intro i; exact ⟨rfl, rfl⟩
  | cons item rest ih =>
    intro i
    have hhead := itemToTask_id_localId i item
    have htail := ih (i + 1)
    exact ⟨by simp [boardItemsToTasksAux, sequentialIds, hhead.2, htail.1],
           by simp [boardItemsToTasksAux, hhead.1, htail.2]⟩

/-- C6: `StoreTasksRequest` installs, for the stored board, exactly the cache
entry built from the input lists (task map, local-ID index and raw-item map
derived from the inputs, fresh empty users/sprints, fresh timestamp) — the
result for that board is identical whatever the previous store contents, so
nothing of the previous entry is merged in — while every other board's entry
is untouched; and the `[]Task` list that `GetBoardItems` feeds it carries
local IDs 1, 2, ..., N in fetch input order. -/
theorem storeTasksRequest_overwrites_board_entry :
    (∀ (ds : Cache) (now : Int) (boardID : String) (ts : List Task)
        (rs : List Item),
      GoMap.find (storeTasksRequest ds now boardID ts rs) boardID =
        some { tasks := tasksMapOf ts, localIdMap := localIdMapOf ts,
               rawItems := rawItemsMapOf rs, users := [], sprints := [],
               timestamp := now } ∧
      GoMap.find (storeTasksRequest ds now boardID ts rs) boardID =
        GoMap.find (storeTasksRequest [] now boardID ts rs) boardID) ∧
    (∀ (ds : Cache) (now : Int) (boardID : String) (ts : List Task)
        (rs : List Item) (other : String), other ≠ boardID →
      GoMap.find (storeTasksRequest ds now boardID ts rs) other =
        GoMap.find ds other) ∧
    (∀ items : List Item,
      (boardItemsToTasks items).map Task.localId =
        (List.range items.length).map (fun k : Nat => 1 + (k : Int)) ∧
      (boardItemsToTasks items).map Task.id = items.map Item.id) := by
  refine ⟨?_, ?_, ?_⟩
  · intro ds now boardID ts rs
    unfold storeTasksRequest
    exact ⟨GoMap.find_insert_self _ _ _,
           by rw [GoMap.find_insert_self, GoMap.find_insert_self]⟩
  · intro ds now boardID ts rs other h
    unfold storeTasksRequest
    exact GoMap.find_insert_ne _ _ _ _ (fun he => h he.symm)
  · intro items
    have h := boardItemsToTasksAux_spec items 1
    exact ⟨by rw [boardItemsToTasks, h.1, sequentialIds_eq_range_map], h.2⟩

/-- Witness for C6: storing into a cache whose board "B1" already holds a
task replaces the entry with one built purely from the input, and leaves
board "B2" alone. -/
theorem storeTasksRequest_overwrites_board_entry_witness :
    GoMap.find
        (storeTasksRequest
          [("B1", { TaskCache.empty 0 with localIdMap := [(9, "old")] }),
           ("B2", TaskCache.empty 3)]
          5 "B1" [{ Task.zero with id := "r1", localId := 1 }] [])
        "B2" =
      some (TaskCache.empty 3) :=
  storeTasksRequest_overwrites_board_entry.2.1
    [("B1", { TaskCache.empty 0 with localIdMap := [(9, "old")] }),
     ("B2", TaskCache.empty 3)]
    5 "B1" [{ Task.zero with id := "r1", localId := 1 }] [] "B2"
    (by decide) |>.trans rfl

/-! ## C9 — persistence round trip -/

theorem optionMapM_map {a b : Type} (enc : a → b) (dec : b → Option a)
    (h : ∀ x, dec (enc x) = some x) :
    ∀ xs : List a, optionMapM dec (xs.map enc) = some xs := by
  intro xs
  induction xs with
  | nil => rfl
  | cons x rest ih => simp [optionMapM, h x, ih]

theorem decodeStrMap_encodeStrMap {β : Type} (enc : β → Json)
    (dec : Json → Option β) (h : ∀ b, dec (enc b) = some b)
    (m : List (String × β)) :
    decodeStrMap dec (encodeStrMap enc m) = some m := by
  show optionMapM (fun p => (dec p.2).map (fun b => (p.1, b)))
      (m.map (fun p => (p.1, enc p.2))) = some m
  exact optionMapM_map (fun p => (p.1, enc p.2))
    (fun p => (dec p.2).map (fun b => (p.1, b)))
    (fun p => by simp [h p.2]) m

theorem decodeColumnValue_encode (cv : ColumnValue) :
    decodeColumnValue (encodeColumnValue cv) = some cv := rfl

theorem decodeItem_encode (it : Item) : decodeItem (encodeItem it) = some it := by
  show (optionMapM decodeColumnValue
      (it.columnValues.map encodeColumnValue)).map _ = some it
  rw [optionMapM_map encodeColumnValue decodeColumnValue
    decodeColumnValue_encode]
  rfl

theorem decodeUser_encode (u : User) : decodeUser (encodeUser u) = some u := rfl

theorem decodeTask_encode (t : Task) : decodeTask (encodeTask t) = some t := rfl

theorem decodeLocalIdMap_encode (m : List (Int × String)) :
    decodeLocalIdMap (encodeLocalIdMap m) = some m := by
  show optionMapM (fun e =>
      match e with
      | Json.arr [Json.int k, Json.str v] => some (k, v)
      | _ => none)
    (m.map (fun p => Json.arr [Json.int p.1, Json.str p.2])) = some m
  exact optionMapM_map (fun p => Json.arr [Json.int p.1, Json.str p.2])
    (fun e =>
      match e with
      | Json.arr [Json.int k, Json.str v] => some (k, v)
      | _ => none)
    (fun p => rfl) m

theorem decodeTaskCache_encode (c : TaskCache) :
    decodeTaskCache (encodeTaskCache c) = some c := by
  show (do
    let tasks ← decodeStrMap decodeTask (encodeStrMap encodeTask c.tasks)
    let localIdMap ← decodeLocalIdMap (encodeLocalIdMap c.localIdMap)
    let rawItems ← decodeStrMap decodeItem (encodeStrMap encodeItem c.rawItems)
    let users ← decodeStrMap decodeUser (encodeStrMap encodeUser c.users)
    let sprints ← optionMapM (fun e =>
      match e with
      | Json.str s => some s
      | _ => none) (c.sprints.map Json.str)
    pure { tasks := tasks, localIdMap := localIdMap, rawItems := rawItems,
           users := users, sprints := sprints,
           timestamp := c.timestamp }) = some c
  rw [decodeStrMap_encodeStrMap encodeTask decodeTask decodeTask_encode,
    decodeLocalIdMap_encode,
    decodeStrMap_encodeStrMap encodeItem decodeItem decodeItem_encode,
    decodeStrMap_encodeStrMap encodeUser decodeUser decodeUser_encode,
    optionMapM_map Json.str
      (fun e => match e with | .str s => some s | _ => none) (fun s => rfl)]
  rfl

theorem decodeStore_encodeStore (s : Cache) :
    decodeStore (encodeStore s) = some s :=
  decodeStrMap_encodeStrMap encodeTaskCache decodeTaskCache
    decodeTaskCache_encode s

theorem find_eq_none_of_not_mem_keys {α β : Type} [DecidableEq α]
    (m : List (α × β)) (k : α) (h : k ∉ m.map Prod.fst) :
    GoMap.find m k = none := by
  induction m with
  | nil => rfl
  | cons p rest ih =>
    obtain ⟨k₀, v₀⟩ := p
    simp only [List.map_cons, List.mem_cons, not_or] at h
    have hne : k₀ ≠ k := fun he => h.1 he.symm
    simp [GoMap.find, hne, ih h.2]

theorem insert_eq_append_of_find_none {α β : Type} [DecidableEq α]
    (m : List (α × β)) (k : α) (v : β) (h : GoMap.find m k = none) :
    GoMap.insert m k v = m ++ [(k, v)] := by
  induction m with
  | nil => rfl
  | cons p rest ih =>
    obtain ⟨k₀, v₀⟩ := p
    by_cases h₀ : k₀ = k
    · simp [GoMap.find, h₀] at h
    · simp only [GoMap.find, h₀, if_false] at h
      simp [GoMap.insert, h₀, ih h]

theorem foldl_insert_of_nodupKeys {α β : Type} [DecidableEq α] :
    ∀ (s acc : List (α × β)),
      (((acc ++ s).map Prod.fst).Nodup) →
      s.foldl (fun a p => GoMap.insert a p.1 p.2) acc = acc ++ s := by
  intro s
  induction s with
  | nil => intro acc _; simp
  | cons p rest ih =>
    intro acc h
    obtain ⟨k, v⟩ := p
    have hmem : k ∉ acc.map Prod.fst := by
      rw [List.map_append, List.nodup_append] at h
      intro hk
      exact h.2.2 hk (by simp)
    have hfind : GoMap.find acc k = none :=
      find_eq_none_of_not_mem_keys acc k hmem
    have hlist : (acc ++ [(k, v)]) ++ rest = acc ++ ((k, v) :: rest) := by
      simp
    have hrec := ih (acc ++ [(k, v)]) (by rw [hlist]; exact h)
    calc ((k, v) :: rest).foldl (fun a p => GoMap.insert a p.1 p.2) acc
        = rest.foldl (fun a p => GoMap.insert a p.1 p.2) (acc ++ [(k, v)]) := by
          rw [List.foldl_cons, insert_eq_append_of_find_none acc k v hfind]
      _ = (acc ++ [(k, v)]) ++ rest := hrec
      _ = acc ++ ((k, v) :: rest) := hlist

/-- C9: marshalling the whole store and unmarshalling the document inverts
exactly — `Load`ing what `Save` wrote into a fresh store reproduces the same
structure, board for board: the same task mapping, the same local-ID index
(and raw items, users, sprints) and the same timestamp. -/
theorem save_load_roundTrip :
    (∀ s : Cache, decodeStore (encodeStore s) = some s) ∧
    (∀ s : Cache, GoMap.NoDupKeys s →
      newDataStore (.stored (encodeStore s)) = s ∧
      ∀ boardID, GoMap.find (newDataStore (.stored (encodeStore s))) boardID =
        GoMap.find s boardID) := by
  refine ⟨decodeStore_encodeStore, ?_⟩
  intro s h
  have : newDataStore (.stored (encodeStore s)) = s := by
    unfold newDataStore loadGo
    simp only [decodeStore_encodeStore]
    exact foldl_insert_of_nodupKeys s [] (by simpa using h)
  exact ⟨this, fun b => by rw [this]⟩

/-- Witness for C9: a two-board store survives the save/load round trip. -/
theorem save_load_roundTrip_witness :
    newDataStore (.stored (encodeStore
        [("B1", { TaskCache.empty 3 with
                    tasks := [("r1", { Task.zero with id := "r1", localId := 1 })],
                    localIdMap := [(1, "r1")] }),
         ("B2", TaskCache.empty 9)])) =
      [("B1", { TaskCache.empty 3 with
                  tasks := [("r1", { Task.zero with id := "r1", localId := 1 })],
                  localIdMap := [(1, "r1")] }),
       ("B2", TaskCache.empty 9)] :=
  (save_load_roundTrip.2
    [("B1", { TaskCache.empty 3 with
                tasks := [("r1", { Task.zero with id := "r1", localId := 1 })],
                localIdMap := [(1, "r1")] }),
     ("B2", TaskCache.empty 9)]
    (by decide)).1

/-! ## C3 — filter AND-composition over six dimensions -/

/-- The claim-side constraint of a single filter dimension: a non-empty
whitelist requires exact membership of the (lower-cased) value, and a
non-empty blacklist containing the value excludes the task; two empty lists
impose no constraint. -/
def DimensionOk (wl bl : List String) (v : String) : Prop :=
  (wl ≠ [] → v ∈ wl) ∧ ¬(bl ≠ [] ∧ v ∈ bl)

theorem filterTasks_eq_filter (tasks : List Task) (fs : Filters) :
    filterTasks tasks fs = tasks.filter (passesFilters fs) := by
  induction tasks with
  | nil => rfl
  | cons t rest ih =>
    by_cases h : passesFilters fs t = true <;>
      simp [filterTasks, List.filter_cons, h, ih]

theorem if_guard_chain (c rest : Bool) :
    (if c = true then false else rest) = (!c && rest) := by
  cases c <;> simp

theorem dim_guard_iff (wl bl : List String) (v : String) :
    ((!whitelistBlocks wl v) = true ∧ (!blacklistBlocks bl v) = true) ↔
      DimensionOk wl bl v := by
  simp only [DimensionOk, whitelistBlocks, blacklistBlocks, List.contains,
    List.elem_eq_mem, Bool.not_eq_true', Bool.and_eq_false_iff,
    decide_eq_false_iff_not, not_lt, Nat.le_zero, List.length_eq_zero,
    gt_iff_lt, List.length_pos, Bool.not_eq_false, Bool.not_eq_false',
    decide_eq_true_eq, not_not]
  tauto

theorem passesFilters_iff (fs : Filters) (t : Task) :
    passesFilters fs t = true ↔
      DimensionOk fs.statusWhitelist fs.statusBlacklist (goToLower t.status) ∧
      DimensionOk fs.priorityWhitelist fs.priorityBlacklist (goToLower t.priority) ∧
      DimensionOk fs.typeWhitelist fs.typeBlacklist (goToLower t.type) ∧
      DimensionOk fs.sprintWhitelist fs.sprintBlacklist (goToLower t.sprint) ∧
      DimensionOk fs.userNameWhitelist fs.userNameBlacklist (goToLower t.userName) ∧
      DimensionOk fs.userEmailWhitelist fs.userEmailBlacklist (goToLower t.userEmail) := by
  unfold passesFilters
  dsimp only
  simp only [if_guard_chain, Bool.and_eq_true, and_true]
  constructor
  · rintro ⟨h1, h2, h3, h4, h5, h6, h7, h8, h9, h10, h11, h12⟩
    exact ⟨(dim_guard_iff _ _ _).mp ⟨h1, h2⟩, (dim_guard_iff _ _ _).mp ⟨h3, h4⟩,
      (dim_guard_iff _ _ _).mp ⟨h5, h6⟩, (dim_guard_iff _ _ _).mp ⟨h7, h8⟩,
      (dim_guard_iff _ _ _).mp ⟨h9, h10⟩, (dim_guard_iff _ _ _).mp ⟨h11, h12⟩⟩
  · rintro ⟨d1, d2, d3, d4, d5, d6⟩
    have p1 := (dim_guard_iff _ _ _).mpr d1
    have p2 := (dim_guard_iff _ _ _).mpr d2
    have p3 := (dim_guard_iff _ _ _).mpr d3
    have p4 := (dim_guard_iff _ _ _).mpr d4
    have p5 := (dim_guard_iff _ _ _).mpr d5
    have p6 := (dim_guard_iff _ _ _).mpr d6
    exact ⟨p1.1, p1.2, p2.1, p2.2, p3.1, p3.2, p4.1, p4.2, p5.1, p5.2,
      p6.1, p6.2⟩

/-- C3: `FilterTasks` keeps a task exactly when it independently satisfies
the constraint of each of the six dimensions, with lower-cased exact-match
whitelist/blacklist semantics per dimension, composed by logical AND. -/
theorem filterTasks_mem_iff (tasks : List Task) (fs : Filters) (t : Task) :
    t ∈ filterTasks tasks fs ↔
      t ∈ tasks ∧
      DimensionOk fs.statusWhitelist fs.statusBlacklist (goToLower t.status) ∧
      DimensionOk fs.priorityWhitelist fs.priorityBlacklist (goToLower t.priority) ∧
      DimensionOk fs.typeWhitelist fs.typeBlacklist (goToLower t.type) ∧
      DimensionOk fs.sprintWhitelist fs.sprintBlacklist (goToLower t.sprint) ∧
      DimensionOk fs.userNameWhitelist fs.userNameBlacklist (goToLower t.userName) ∧
      DimensionOk fs.userEmailWhitelist fs.userEmailBlacklist (goToLower t.userEmail) := by
  rw [filterTasks_eq_filter, List.mem_filter, passesFilters_iff]

/-! ## C4 — the ordering comparator

The claim's status table does not match the source: `getSortableStatus`
special-cases only the substrings `done`, `in progress`, `stuck`,
`waiting for review`, `ready for testing`, `removed` — statuses containing
`completed`, `blocked` or `not started` (without a listed substring) fall
through to the unrecognized rank 7; and `getSortableType` gives `other` its
own rank 6 ahead of unrecognized text (rank 7) rather than sharing one
rank. -/

/-- Counterexample to C4 as stated: a task whose status is "Completed" gets
status rank 7 (not 1) and sorts *after* an "In Progress" task (rank 2),
where the claim puts completed first; likewise "Blocked" is not rank 3 and
"Not Started" is not rank 5 but both rank 7; and a task of type "Other"
compares strictly before one of unrecognized type "misc" under equal status
and priority, where the claim makes them share one type rank. -/
theorem orderTasks_claim_counterexample :
    getSortableStatus { Task.zero with status := "Completed" } = 7 ∧
    getSortableStatus { Task.zero with status := "In Progress" } = 2 ∧
    orderTasks [{ Task.zero with id := "a", status := "Completed" },
                { Task.zero with id := "b", status := "In Progress" }] =
      [{ Task.zero with id := "b", status := "In Progress" },
       { Task.zero with id := "a", status := "Completed" }] ∧
    getSortableStatus { Task.zero with status := "Blocked" } = 7 ∧
    getSortableStatus { Task.zero with status := "Not Started" } = 7 ∧
    getSortableType { Task.zero with type := "Other" } = 6 ∧
    getSortableType { Task.zero with type := "misc" } = 7 ∧
    orderLess { Task.zero with type := "Other" }
      { Task.zero with type := "misc" } = true := by
  refine ⟨by decide, by decide, by decide, by decide, by decide, by decide,
    by decide, by decide⟩

/-- C4 (amended): the comparator used by `OrderTasks` is the lexicographic
comparison of (status rank, priority rank, type rank), where the ranks are
computed by case-insensitive substring matching with status table
done (1) < in progress (2) < stuck (3) < waiting for review (4) <
ready for testing (5) < removed (6) < anything else (7, sorts last) —
"completed"/"blocked"/"not started" are not special-cased — priority table
critical (1) < high (2) < medium (3) < low (4) < unrecognized (5), and type
table bug (1) < feature (2) < test (3) < security (4) < quality (5) <
other (6) < unrecognized (7); three equal-priority/type tasks with statuses
"Removed", "Done", "In Progress" are ordered [Done, In Progress, Removed]. -/
theorem orderTasks_comparator_lex :
    (∀ t u : Task,
      orderLess t u = true ↔
        (getSortableStatus t < getSortableStatus u ∨
          (getSortableStatus t = getSortableStatus u ∧
            (getSortablePriority t < getSortablePriority u ∨
              (getSortablePriority t = getSortablePriority u ∧
                getSortableType t < getSortableType u))))) ∧
    ((getSortableStatus { Task.zero with status := "Done" } = 1 ∧
      getSortableStatus { Task.zero with status := "In Progress" } = 2 ∧
      getSortableStatus { Task.zero with status := "Stuck" } = 3 ∧
      getSortableStatus { Task.zero with status := "Waiting For Review" } = 4 ∧
      getSortableStatus { Task.zero with status := "Ready For Testing" } = 5 ∧
      getSortableStatus { Task.zero with status := "Removed" } = 6 ∧
      getSortableStatus { Task.zero with status := "Something Else" } = 7 ∧
      getSortableStatus { Task.zero with status := "PARTLY DONE" } = 1) ∧
     (getSortablePriority { Task.zero with priority := "Critical" } = 1 ∧
      getSortablePriority { Task.zero with priority := "High" } = 2 ∧
      getSortablePriority { Task.zero with priority := "Medium" } = 3 ∧
      getSortablePriority { Task.zero with priority := "Low" } = 4 ∧
      getSortablePriority { Task.zero with priority := "whatever" } = 5) ∧
     (getSortableType { Task.zero with type := "Bug" } = 1 ∧
      getSortableType { Task.zero with type := "Feature" } = 2 ∧
      getSortableType { Task.zero with type := "Test" } = 3 ∧
      getSortableType { Task.zero with type := "Security" } = 4 ∧
      getSortableType { Task.zero with type := "Quality" } = 5 ∧
      getSortableType { Task.zero with type := "Other" } = 6 ∧
      getSortableType { Task.zero with type := "misc" } = 7)) ∧
    orderTasks [{ Task.zero with id := "r", status := "Removed" },
                { Task.zero with id := "d", status := "Done" },
                { Task.zero with id := "p", status := "In Progress" }] =
      [{ Task.zero with id := "d", status := "Done" },
       { Task.zero with id := "p", status := "In Progress" },
       { Task.zero with id := "r", status := "Removed" }] := by
  refine ⟨?_, by decide, by decide⟩
  intro t u
  unfold orderLess
  dsimp only
  split_ifs with h1 h2 <;> simp only [decide_eq_true_eq] <;> omega

/-! ## C2 — sprint merge preserves existing local IDs and mints max+1 -/

theorem find_mem {α β : Type} [DecidableEq α] (m : List (α × β)) (k : α)
    (v : β) (h : GoMap.find m k = some v) : (k, v) ∈ m := by
  induction m with
  | nil => simp [GoMap.find] at h
  | cons p rest ih =>
    obtain ⟨k₀, v₀⟩ := p
    by_cases h₀ : k₀ = k
    · subst h₀
      rw [GoMap.find_cons, if_pos rfl, Option.some.injEq] at h
      subst h
      exact List.mem_cons_self _ _
    · simp only [GoMap.find_cons, h₀, if_false] at h
      exact List.mem_cons_of_mem _ (ih h)

theorem le_maxLocalIdInUse (m : List (Int × String)) :
    ∀ p ∈ m, p.1 ≤ maxLocalIdInUse m := by
  suffices h : ∀ (init : Int),
      init ≤ m.foldl (fun acc p => max acc p.1) init ∧
      ∀ p ∈ m, p.1 ≤ m.foldl (fun acc p => max acc p.1) init by
    exact (h 0).2
  induction m with
  | nil => intro init; simp
  | cons q rest ih =>
    intro init
    obtain ⟨k, v⟩ := q
    have hrec := ih (max init k)
    refine ⟨le_trans (le_max_left _ _) hrec.1, ?_⟩
    intro p hp
    rcases List.mem_cons.mp hp with h | h
    · rw [h]
      exact le_trans (le_max_right init k) hrec.1
    · exact hrec.2 p h

theorem find_next_localId_none (m : List (Int × String)) :
    GoMap.find m (maxLocalIdInUse m + 1) = none := by
  cases hf : GoMap.find m (maxLocalIdInUse m + 1) with
  | none => rfl
  | some v =>
    have hmem := find_mem m _ v hf
    have hle := le_maxLocalIdInUse m _ hmem
    omega

/-- Example data from the claim: board B1 caches r1 (Done, local ID 1) and
r2 (Stuck, local ID 2). -/
def exCachedR1 : Task := { Task.zero with id := "r1", localId := 1, status := "Done" }

def exCachedR2 : Task := { Task.zero with id := "r2", localId := 2, status := "Stuck" }

def exBoardCache : TaskCache :=
  { tasks := [("r1", exCachedR1), ("r2", exCachedR2)],
    localIdMap := [(1, "r1"), (2, "r2")], rawItems := [], users := [],
    sprints := [], timestamp := 0 }

/-- Incoming sprint tasks of the claim's example. -/
def exIncomingR1 : Task := { Task.zero with id := "r1", status := "In Progress" }

def exIncomingR3 : Task := { Task.zero with id := "r3", status := "Done" }

/-- C2: per the spec-modelled `MergeSprintTasksIntoBoard`: the whole merge is
the per-task step folded over the board's existing cache (an empty one when
the board is new); a step whose incoming task's remote ID already exists in
the task mapping rewrites that task's fields in place, keeps its existing
local ID and leaves the local-ID index and all other tasks untouched; a step
with a new remote ID mints the previously unused local ID
`maxLocalIdInUse + 1` (1 on an empty cache), inserts the task under it and
leaves every other binding untouched; and on the claim's example —
{1 ↦ r1 (Done), 2 ↦ r2 (Stuck)} merged with [r1 (In Progress), r3 (Done)] —
r1 keeps local ID 1 with updated status, r2 is unchanged at 2, and r3 gets
local ID 3. -/
theorem mergeSprintTasksIntoBoard_spec :
    (∀ (ds : Cache) (now : Int) (boardID : String) (ts : List Task)
        (rs : List Item),
      ∃ c, GoMap.find (mergeSprintTasksIntoBoard ds now boardID ts rs) boardID =
          some c ∧
        c.tasks = (ts.foldl mergeSprintTaskStep
          ((GoMap.find ds boardID).getD (TaskCache.empty now))).tasks ∧
        c.localIdMap = (ts.foldl mergeSprintTaskStep
          ((GoMap.find ds boardID).getD (TaskCache.empty now))).localIdMap) ∧
    (∀ (c : TaskCache) (t : Task) (old : Task),
      GoMap.find c.tasks t.id = some old →
        (mergeSprintTaskStep c t).localIdMap = c.localIdMap ∧
        GoMap.find (mergeSprintTaskStep c t).tasks t.id =
          some { t with localId := old.localId } ∧
        ∀ id', id' ≠ t.id →
          GoMap.find (mergeSprintTaskStep c t).tasks id' =
            GoMap.find c.tasks id') ∧
    (∀ (c : TaskCache) (t : Task),
      GoMap.find c.tasks t.id = none →
        GoMap.find c.localIdMap (maxLocalIdInUse c.localIdMap + 1) = none ∧
        GoMap.find (mergeSprintTaskStep c t).tasks t.id =
          some { t with localId := maxLocalIdInUse c.localIdMap + 1 } ∧
        GoMap.find (mergeSprintTaskStep c t).localIdMap
          (maxLocalIdInUse c.localIdMap + 1) = some t.id ∧
        (∀ id', id' ≠ t.id →
          GoMap.find (mergeSprintTaskStep c t).tasks id' =
            GoMap.find c.tasks id') ∧
        (∀ l, l ≠ maxLocalIdInUse c.localIdMap + 1 →
          GoMap.find (mergeSprintTaskStep c t).localIdMap l =
            GoMap.find c.localIdMap l)) ∧
    GoMap.find
        (mergeSprintTasksIntoBoard [("B1", exBoardCache)] 5 "B1"
          [exIncomingR1, exIncomingR3] [])
        "B1" =
      some
        { tasks :=
            [("r1", { exIncomingR1 with localId := 1 }),
             ("r2", exCachedR2),
             ("r3", { exIncomingR3 with localId := 3 })],
          localIdMap := [(1, "r1"), (2, "r2"), (3, "r3")], rawItems := [],
          users := [], sprints := [], timestamp := 5 } := by
  refine ⟨?_, ?_, ?_, by decide⟩
  · intro ds now boardID ts rs
    unfold mergeSprintTasksIntoBoard
    dsimp only
    rw [GoMap.find_insert_self]
    exact ⟨_, rfl, rfl, rfl⟩
  · intro c t old h
    unfold mergeSprintTaskStep
    rw [h]
    exact ⟨rfl, GoMap.find_insert_self _ _ _,
      fun id' hne => GoMap.find_insert_ne _ _ _ _ (fun he => hne he.symm)⟩
  · intro c t h
    unfold mergeSprintTaskStep
    rw [h]
    exact ⟨find_next_localId_none c.localIdMap,
      GoMap.find_insert_self _ _ _,
      GoMap.find_insert_self _ _ _,
      fun id' hne => GoMap.find_insert_ne _ _ _ _ (fun he => hne he.symm),
      fun l hne => GoMap.find_insert_ne _ _ _ _ (fun he => hne he.symm)⟩

/-- Witness for C2: applying the in-place-update clause of the merge theorem
to the example cache and the incoming r1 task of the claim: the local-ID index is
unchanged and r1 keeps local ID 1 while its fields are overwritten. -/
theorem mergeSprintTasksIntoBoard_spec_witness :
    (mergeSprintTaskStep exBoardCache exIncomingR1).localIdMap =
      [(1, "r1"), (2, "r2")] ∧
    GoMap.find (mergeSprintTaskStep exBoardCache exIncomingR1).tasks "r1" =
      some { exIncomingR1 with localId := 1 } := by
  have h := mergeSprintTasksIntoBoard_spec.2.1 exBoardCache exIncomingR1
    exCachedR1 (by decide)
  exact ⟨h.1, h.2.1⟩

/-! ## C10 — dangling index entries and absent task IDs yield the zero task
with `found = true` -/

/-- C10: on a successfully loaded cache in which the board exists, (a) a
local ID that is indexed to a remote task ID absent from the board's task
mapping makes `GetCachedTaskByLocalId` return the zero-value `Task` together
with `found = true` (and the board's timestamp), and (b) `GetCachedTask`
likewise returns the zero-value `Task` with `found = true` for any task ID
absent from the board's task mapping. -/
theorem dangling_lookups_return_zero_task_found (file : CacheFile)
    (ds cache : Cache) (boardID : String) (c : TaskCache)
    (hload : loadGo file ds = .ok cache)
    (hboard : GoMap.find cache boardID = some c) :
    (∀ (localId : Int) (taskID : String),
      GoMap.find c.localIdMap localId = some taskID →
      GoMap.find c.tasks taskID = none →
      getCachedTaskByLocalId file ds boardID localId =
        ⟨Task.zero, c.timestamp, true⟩) ∧
    (∀ taskID : String,
      GoMap.find c.tasks taskID = none →
      getCachedTask file ds boardID taskID = ⟨Task.zero, c.timestamp, true⟩) := by
  constructor
  · intro localId taskID hidx htask
    unfold getCachedTaskByLocalId
    rw [hload]
    simp only [hboard, hidx, htask]
    rfl
  · intro taskID htask
    unfold getCachedTask
    rw [hload]
    simp only [hboard, htask]
    rfl

/-- Witness for C10: board "B1" indexes local ID 1 to "r1" but its task map
is empty (a dangling entry): both getters return the zero task with
`found = true` and the board's timestamp. -/
theorem dangling_lookups_return_zero_task_found_witness :
    getCachedTaskByLocalId .missing
        [("B1", { TaskCache.empty 7 with localIdMap := [(1, "r1")] })]
        "B1" 1 = ⟨Task.zero, 7, true⟩ ∧
    getCachedTask .missing
        [("B1", { TaskCache.empty 7 with localIdMap := [(1, "r1")] })]
        "B1" "r1" = ⟨Task.zero, 7, true⟩ :=
  ⟨(dangling_lookups_return_zero_task_found .missing
      [("B1", { TaskCache.empty 7 with localIdMap := [(1, "r1")] })]
      [("B1", { TaskCache.empty 7 with localIdMap := [(1, "r1")] })]
      "B1" { TaskCache.empty 7 with localIdMap := [(1, "r1")] }
      rfl rfl).1 1 "r1" rfl rfl,
   (dangling_lookups_return_zero_task_found .missing
      [("B1", { TaskCache.empty 7 with localIdMap := [(1, "r1")] })]
      [("B1", { TaskCache.empty 7 with localIdMap := [(1, "r1")] })]
      "B1" { TaskCache.empty 7 with localIdMap := [(1, "r1")] }
      rfl rfl).2 "r1" rfl⟩

end MondayCLI
